import Mathlib

/-!
Verification of the TripSync backend core against its specification.

This file gives a shallow embedding, in Lean 4, of the algorithmic core of
the TripSync backend (`backend/app/modules/`): the trip state machine
(`trip_state_machine.py`), the route recorder's buffer logic
(`route_recorder.py`), the sensor processor (`sensor_processor.py`) and the
feature extractor / mode classifier (`ml_backend.py`).  Python floats are
modelled as `ℚ`, `datetime` values as rational epoch seconds, `None` as
`Option.none`, and calls into external libraries (geopy's geodesic distance,
the transcendental functions of `math`, timezone-dependent parts of
`datetime`) as explicit function parameters, since their numeric values are
produced outside the repository.  Fallible paths return `Option`.
-/

namespace TripSync

/-! ## Trip state machine (`trip_state_machine.py`)

The `TripStateMachine` class holds a `TripContext` and dispatches sensor
samples to a per-state handler.  `datetime.now()` — used for the
state-entry time and trip-id generation — is an ambient input and is
modelled as an explicit `now : ℚ` argument of each operation.  The
`on_trip_start` / `on_trip_stop` callbacks are external collaborators and
are modelled as emitted `HookEvent`s. -/

inductive TripState where
  | idle
  | active
deriving DecidableEq

/-- Embedding of `TripConfig` (defaults: 3.0 km/h, 60 s, 60 s, 45 s). -/
structure TripConfig where
  speed_threshold_kmh : ℚ
  duration_threshold_seconds : ℚ
  stop_duration_threshold_seconds : ℚ
  gps_collection_interval_seconds : ℚ
deriving DecidableEq

def defaultTripConfig : TripConfig :=
  { speed_threshold_kmh := 3
    duration_threshold_seconds := 60
    stop_duration_threshold_seconds := 60
    gps_collection_interval_seconds := 45 }

/-- Embedding of the `SensorData` dataclass. -/
structure SensorData where
  speed_kmh : ℚ
  latitude : ℚ
  longitude : ℚ
  accuracy : ℚ
  timestamp : ℚ
  activity_type : Option String := none
deriving DecidableEq

/-- Embedding of the `TripContext` dataclass. -/
structure TripContext where
  trip_id : Option String := none
  current_state : TripState := .idle
  state_start_time : Option ℚ := none
  last_sensor_data : Option SensorData := none
  speed_above_threshold_start : Option ℚ := none
  speed_below_threshold_start : Option ℚ := none
deriving DecidableEq

/-- Fresh `TripContext()` as built in `TripStateMachine.__init__`. -/
def initialContext : TripContext := {}

/-- Calls to the route-recorder callbacks, recorded as events. -/
inductive HookEvent where
  | tripStart (id : String)
  | tripStop (id : String)
deriving DecidableEq

/-- Embedding of `_generate_trip_id`; the `strftime` rendering of the
current wall-clock time is abstracted to `toString now`. -/
def genTripId (tag : String) (now : ℚ) : String :=
  tag ++ "_" ++ toString now

/-- Embedding of `_transition_to_active`. -/
def transitionToActive (ctx : TripContext) (tripId : String) (now : ℚ) :
    TripContext × List HookEvent :=
  ({ ctx with
      current_state := .active
      trip_id := some tripId
      state_start_time := some now
      speed_above_threshold_start := none
      speed_below_threshold_start := none },
   [HookEvent.tripStart tripId])

/-- Embedding of `_transition_to_idle`; `on_trip_stop` is invoked only when
a trip id is present (`if self.on_trip_stop and trip_id`). -/
def transitionToIdle (ctx : TripContext) (now : ℚ) :
    TripContext × List HookEvent :=
  ({ ctx with
      current_state := .idle
      trip_id := none
      state_start_time := some now
      speed_above_threshold_start := none
      speed_below_threshold_start := none },
   match ctx.trip_id with
   | some id => [HookEvent.tripStop id]
   | none => [])

/-- Result of one `process_sensor_data` call: the mutated context, the
`state_changed` flag of the returned dict, and the emitted hook calls. -/
structure StepOut where
  ctx : TripContext
  state_changed : Bool
  events : List HookEvent
deriving DecidableEq

/-- Embedding of `_handle_idle_state`. -/
def handleIdleState (cfg : TripConfig) (ctx : TripContext) (sd : SensorData)
    (now : ℚ) : StepOut :=
  if cfg.speed_threshold_kmh ≤ sd.speed_kmh then
    match ctx.speed_above_threshold_start with
    | none =>
        ⟨{ ctx with speed_above_threshold_start := some sd.timestamp }, false, []⟩
    | some t0 =>
        if cfg.duration_threshold_seconds ≤ sd.timestamp - t0 then
          let r := transitionToActive ctx (genTripId "auto" now) now
          ⟨r.1, true, r.2⟩
        else
          ⟨ctx, false, []⟩
  else
    ⟨{ ctx with speed_above_threshold_start := none }, false, []⟩

/-- Embedding of `_handle_active_state`. -/
def handleActiveState (cfg : TripConfig) (ctx : TripContext) (sd : SensorData)
    (now : ℚ) : StepOut :=
  if sd.speed_kmh < cfg.speed_threshold_kmh then
    match ctx.speed_below_threshold_start with
    | none =>
        ⟨{ ctx with speed_below_threshold_start := some sd.timestamp }, false, []⟩
    | some t0 =>
        if cfg.stop_duration_threshold_seconds ≤ sd.timestamp - t0 then
          let r := transitionToIdle ctx now
          ⟨r.1, true, r.2⟩
        else
          ⟨ctx, false, []⟩
  else
    ⟨{ ctx with speed_below_threshold_start := none }, false, []⟩

/-- Embedding of `process_sensor_data` (the dispatch method). -/
def processSensorData (cfg : TripConfig) (ctx : TripContext) (sd : SensorData)
    (now : ℚ) : StepOut :=
  let ctx1 := { ctx with last_sensor_data := some sd }
  match ctx1.current_state with
  | .idle => handleIdleState cfg ctx1 sd now
  | .active => handleActiveState cfg ctx1 sd now

/-- Embedding of `manual_start_trip`: returns the trip id, the new context
and the emitted hook calls. -/
def manualStartTrip (ctx : TripContext) (userId : String) (now : ℚ) :
    Option String × TripContext × List HookEvent :=
  if ctx.current_state = .active then
    (ctx.trip_id, ctx, [])
  else
    let tid := genTripId userId now
    let r := transitionToActive ctx tid now
    (some tid, r.1, r.2)

/-- Embedding of `manual_stop_trip`. -/
def manualStopTrip (ctx : TripContext) (now : ℚ) :
    Bool × TripContext × List HookEvent :=
  if ctx.current_state = .active then
    let r := transitionToIdle ctx now
    (true, r.1, r.2)
  else
    (false, ctx, [])

/-- One public operation of a `TripStateMachine`. -/
inductive MachineOp where
  | sensor (sd : SensorData) (now : ℚ)
  | manualStart (userId : String) (now : ℚ)
  | manualStop (now : ℚ)

/-- Effect of one operation on the context. -/
def applyOp (cfg : TripConfig) (ctx : TripContext) : MachineOp → TripContext
  | .sensor sd now => (processSensorData cfg ctx sd now).ctx
  | .manualStart uid now => (manualStartTrip ctx uid now).2.1
  | .manualStop now => (manualStopTrip ctx now).2.1

/-- Run a sequence of operations from a context. -/
def runOps (cfg : TripConfig) (ctx : TripContext) (ops : List MachineOp) :
    TripContext :=
  ops.foldl (applyOp cfg) ctx

/-- Run sensor samples (each paired with its wall-clock `now`), returning
the final context and the list of per-call `state_changed` flags. -/
def runMachine (cfg : TripConfig) :
    TripContext → List (SensorData × ℚ) → TripContext × List Bool
  | ctx, [] => (ctx, [])
  | ctx, i :: is =>
      let out := processSensorData cfg ctx i.1 i.2
      let r := runMachine cfg out.ctx is
      (r.1, out.state_changed :: r.2)

/-- Spec invariant on `TripContext`: a trip id exists iff the state is
Active. -/
def tripIdInvariant (ctx : TripContext) : Prop :=
  ctx.trip_id.isSome = true ↔ ctx.current_state = .active

/-- Concrete sensor sample used in concrete runs of the state machine. -/
def mkSample (speed ts : ℚ) : SensorData :=
  { speed_kmh := speed, latitude := 0, longitude := 0, accuracy := 5,
    timestamp := ts }

/-- Input sequence of claim C2: 59 samples at 5 km/h (t = 0..58), one at
1 km/h (t = 59), 59 more at 5 km/h (t = 60..118), 1 Hz spacing. -/
def c2Inputs : List (SensorData × ℚ) :=
  ((List.range 59).map fun i => (mkSample 5 (i : ℚ), (i : ℚ)))
    ++ [(mkSample 1 59, 59)]
    ++ ((List.range 59).map fun i => (mkSample 5 (60 + (i : ℚ)), 60 + (i : ℚ)))

/-- Concrete Active context used as witness input for claim C8. -/
def c8ActiveCtx : TripContext :=
  { trip_id := some "auto_5"
    current_state := .active
    state_start_time := some 5 }

/-- Concrete first sample of the C1 witness run. -/
def c1S0 : SensorData × ℚ := (mkSample 5 0, 0)

/-- Remaining samples of the C1 witness run. -/
def c1Rest : List (SensorData × ℚ) := [(mkSample 5 61, 61)]

/-- Last sample of the C1 witness run. -/
def c1Last : SensorData × ℚ := (mkSample 5 61, 61)

/-! ## Route recorder (`route_recorder.py`)

The `RouteRecorder` keeps, per open trip, an append-only `gps_points`
buffer.  `add_gps_point` validates the incoming dict, builds a `GPSPoint`
(timestamp taken from the dict, defaulting to `datetime.now()`), and
appends it only when `_should_add_point` holds, i.e. when the geodesic
distance from the last retained point is at least
`min_distance_filter = 10` metres.  Distances are computed by the external
`geopy.distance.geodesic` library, modelled here as an explicit parameter
`dist : RoutePoint → RoutePoint → ℚ` (metres).  Batched persistence writes
do not mutate the buffer and are omitted. -/

/-- Embedding of the `GPSPoint` dataclass of `route_recorder.py`. -/
structure RoutePoint where
  latitude : ℚ
  longitude : ℚ
  timestamp : ℚ
  accuracy : ℚ
  speed_kmh : Option ℚ := none
  altitude : Option ℚ := none
  bearing : Option ℚ := none
deriving DecidableEq

/-- Embedding of the `gps_data` dict passed to `add_gps_point`; absent keys
are `none`. -/
structure GpsInput where
  latitude : Option ℚ := none
  longitude : Option ℚ := none
  timestamp : Option ℚ := none
  accuracy : Option ℚ := none
  speed_kmh : Option ℚ := none
  altitude : Option ℚ := none
  bearing : Option ℚ := none
deriving DecidableEq

/-- Embedding of `_validate_gps_data` (required fields, coordinate bounds,
accuracy at most `max_accuracy_threshold = 50` with `.get` default 0). -/
def validateGpsData (gd : GpsInput) : Bool :=
  match gd.latitude, gd.longitude with
  | some lat, some lon =>
      decide (-90 ≤ lat ∧ lat ≤ 90) && decide (-180 ≤ lon ∧ lon ≤ 180)
        && decide (gd.accuracy.getD 0 ≤ 50)
  | _, _ => false

/-- Construction of the `GPSPoint` inside `add_gps_point`; `now` stands for
`datetime.now().timestamp()`, the default when the dict has no timestamp. -/
def mkRoutePoint (gd : GpsInput) (now : ℚ) : RoutePoint :=
  { latitude := gd.latitude.getD 0
    longitude := gd.longitude.getD 0
    timestamp := gd.timestamp.getD now
    accuracy := gd.accuracy.getD 0
    speed_kmh := gd.speed_kmh
    altitude := gd.altitude
    bearing := gd.bearing }

/-- Embedding of `_should_add_point`: first point always retained,
otherwise the distance from the last retained point must reach
`min_distance_filter = 10` metres. -/
def shouldAddPoint (dist : RoutePoint → RoutePoint → ℚ)
    (buf : List RoutePoint) (p : RoutePoint) : Bool :=
  match buf.getLast? with
  | none => true
  | some lastP => decide (10 ≤ dist lastP p)

/-- Embedding of `add_gps_point` restricted to one open trip's buffer:
returns the new buffer and whether the point was retained. -/
def addGpsPoint (dist : RoutePoint → RoutePoint → ℚ)
    (buf : List RoutePoint) (gd : GpsInput) (now : ℚ) :
    List RoutePoint × Bool :=
  if validateGpsData gd then
    let p := mkRoutePoint gd now
    if shouldAddPoint dist buf p then (buf ++ [p], true) else (buf, false)
  else (buf, false)

/-- Buffer after a sequence of `add_gps_point` calls (each paired with its
wall-clock `now`). -/
def runAddPoints (dist : RoutePoint → RoutePoint → ℚ)
    (buf : List RoutePoint) (calls : List (GpsInput × ℚ)) : List RoutePoint :=
  calls.foldl (fun b c => (addGpsPoint dist b c.1 c.2).1) buf

/-- Distance half of the buffer invariant: consecutive retained points are
at least 10 m apart (w.r.t. the recorder's distance function). -/
def distChain (dist : RoutePoint → RoutePoint → ℚ)
    (buf : List RoutePoint) : Prop :=
  List.Chain' (fun a b => 10 ≤ dist a b) buf

/-- Ordering half of the buffer invariant: non-decreasing timestamps. -/
def tsChain (buf : List RoutePoint) : Prop :=
  List.Chain' (fun a b => a.timestamp ≤ b.timestamp) buf

/-- Effective timestamp of an `add_gps_point` call: the dict's timestamp,
defaulting to the call's wall clock. -/
def effTs (c : GpsInput × ℚ) : ℚ := c.1.timestamp.getD c.2

/-- Concrete instance of the external geodesic call, agreeing with
`geopy.distance.geodesic(...).meters` in scale on the meridian points used
below (one degree of latitude is close to 111 km). -/
def latDist (p q : RoutePoint) : ℚ := |p.latitude - q.latitude| * 111000

/-- Two valid calls whose dict timestamps arrive out of order (100 then
50) while the points are far apart. -/
def c4OutOfOrderCalls : List (GpsInput × ℚ) :=
  [({ latitude := some 0, longitude := some 0, timestamp := some 100,
      accuracy := some 5 }, 100),
   ({ latitude := some 1, longitude := some 0, timestamp := some 50,
      accuracy := some 5 }, 120)]

/-- Two valid calls with in-order timestamps and far-apart points. -/
def c4InOrderCalls : List (GpsInput × ℚ) :=
  [({ latitude := some 0, longitude := some 0, timestamp := some 50,
      accuracy := some 5 }, 50),
   ({ latitude := some 1, longitude := some 0, timestamp := some 100,
      accuracy := some 5 }, 120)]

/-- Consecutive pairs of a list, as iterated by `_calculate_distance`'s
`for i in range(1, len(...))` loop. -/
def consecPairs {α : Type} (l : List α) : List (α × α) := l.zip l.tail

/-- Embedding of `RouteRecorder._calculate_distance`: sum of consecutive
distances, discarding any single segment of at least 1 km
(`distance_meters < 1000` is required for inclusion), divided by 1000. -/
def calcDistanceKm (dist : RoutePoint → RoutePoint → ℚ)
    (pts : List RoutePoint) : ℚ :=
  if pts.length < 2 then 0
  else ((consecPairs pts).map
      (fun ab => if dist ab.1 ab.2 < 1000 then dist ab.1 ab.2 else 0)).sum / 1000

/-- Unfiltered sum of consecutive distances, in km: the comparison value of
claim C6. -/
def plainDistanceKm (dist : RoutePoint → RoutePoint → ℚ)
    (pts : List RoutePoint) : ℚ :=
  ((consecPairs pts).map (fun ab => dist ab.1 ab.2)).sum / 1000

/-- Simple point constructor for concrete distance computations. -/
def latPoint (lat ts : ℚ) : RoutePoint :=
  { latitude := lat, longitude := 0, timestamp := ts, accuracy := 5 }

/-- Three points with consecutive `latDist` distances 555 m and 555 m. -/
def c6Pts : List RoutePoint :=
  [latPoint 0 0, latPoint (1/200) 10, latPoint (1/100) 20]

/-- Point exactly 2 km (by `latDist`) past the last of `c6Pts`. -/
def c6Q : RoutePoint := latPoint (1/100 + 2/111) 30

/-! ## Sensor processor (`sensor_processor.py`) -/

/-- Embedding of the `ActivityType` enum. -/
inductive ActivityType where
  | still
  | walking
  | running
  | in_vehicle
  | on_bicycle
  | on_foot
  | tilting
  | unknown
deriving DecidableEq

/-- Embedding of Python's `str.upper()` for the ASCII labels involved. -/
def strUpper (s : String) : String := ⟨s.data.map Char.toUpper⟩

/-- Embedding of `ActivityRecognitionProcessor.__init__`'s
`activity_mapping` dict, in source order (all keys distinct). -/
def activityMapping : List (String × ActivityType) :=
  [("IN_VEHICLE", .in_vehicle),
   ("ON_BICYCLE", .on_bicycle),
   ("ON_FOOT", .on_foot),
   ("RUNNING", .running),
   ("STILL", .still),
   ("TILTING", .tilting),
   ("WALKING", .walking),
   ("automotive", .in_vehicle),
   ("cycling", .on_bicycle),
   ("running", .running),
   ("walking", .walking),
   ("stationary", .still),
   ("in_vehicle", .in_vehicle),
   ("on_bicycle", .on_bicycle),
   ("on_foot", .on_foot),
   ("still", .still),
   ("unknown", .unknown)]

/-- Dict lookup by exact key equality (`dict.get`). -/
def lookupAct : List (String × ActivityType) → String → Option ActivityType
  | [], _ => none
  | (k, v) :: rest, s => if k = s then some v else lookupAct rest s

/-- Embedding of `ActivityRecognitionProcessor.process_activity`.  The key
is uppercased (`activity_type.upper()`); a falsy label (absent or empty)
becomes the literal key "UNKNOWN"; a falsy confidence (absent or 0.0) is
replaced by 0.5 (`confidence or 0.5`), then clamped to [0, 1]. -/
def processActivity (activity_type : Option String) (confidence : Option ℚ) :
    ActivityType × ℚ :=
  let key := match activity_type with
    | some s => if s = "" then "UNKNOWN" else strUpper s
    | none => "UNKNOWN"
  let act := (lookupAct activityMapping key).getD ActivityType.unknown
  let c0 : ℚ := match confidence with
    | none => 1/2
    | some v => if v = 0 then 1/2 else v
  (act, max 0 (min 1 c0))

/-- Sliding-window push with `deque(maxlen=maxlen)` semantics: append and
keep the most recent `maxlen` entries. -/
def pushWindow (maxlen : ℕ) (w : List ℚ) (x : ℚ) : List ℚ :=
  (w ++ [x]).drop ((w ++ [x]).length - maxlen)

/-- Embedding of `SensorDataProcessor._process_speed` for one user: the
current window is `w`; an absent `speed_mps` contributes `(None or 0)`,
converted to km/h by `× 3.6 = 18/5`; the returned speed is the window's
arithmetic mean. -/
def processSpeed (speed_mps : Option ℚ) (w : List ℚ) : ℚ × List ℚ :=
  let current := speed_mps.getD 0 * (18/5)
  let w' := pushWindow 5 w current
  (if w'.isEmpty then 0 else w'.sum / (w'.length : ℚ), w')

/-! ## Feature extractor and mode classifier (`ml_backend.py`) -/

/-- Embedding of a GPS-point dict passed to `extract_features`; absent keys
are `none` and each use site applies its own `.get` default. -/
structure MLPoint where
  timestamp : Option ℚ := none
  latitude : Option ℚ := none
  longitude : Option ℚ := none
  speed_kmh : Option ℚ := none
  accuracy : Option ℚ := none
deriving DecidableEq

/-- External numeric calls of the extractor, modelled as parameters: `hav`
and `bearing` stand for the float/trigonometric evaluation inside
`_haversine_distance` and `_calculate_bearing` (Python `math` library), and
`hourOf`/`weekdayOf` for the timezone-dependent
`datetime.fromtimestamp(t).hour`/`.weekday()`.  Their numeric values never
influence the extractor's control flow. -/
structure ExtOracle where
  hav : MLPoint → MLPoint → ℚ
  bearing : MLPoint → MLPoint → ℚ
  hourOf : ℚ → ℤ
  weekdayOf : ℚ → ℤ

/-- Stable insertion into a sorted list (model of Python's stable sort). -/
def insertSorted {α : Type} (le : α → α → Bool) (x : α) : List α → List α
  | [] => [x]
  | y :: ys => if le x y then x :: y :: ys else y :: insertSorted le x ys

/-- Stable insertion sort: model of Python's `sorted` with a key. -/
def sortedBy {α : Type} (le : α → α → Bool) : List α → List α
  | [] => []
  | x :: xs => insertSorted le x (sortedBy le xs)

/-- Model of `sorted(gps_points, key=lambda x: x.get("timestamp", 0))`. -/
def sortPoints (pts : List MLPoint) : List MLPoint :=
  sortedBy (fun a b => decide (a.timestamp.getD 0 ≤ b.timestamp.getD 0)) pts

/-- Python `max` over a nonempty list (0 on empty, never reached). -/
def maxList (l : List ℚ) : ℚ :=
  match l with
  | [] => 0
  | x :: xs => xs.foldl max x

/-- Embedding of `statistics.variance`: sample variance with an `n - 1`
denominator (guarded by `len > 1` at every call site). -/
def sampleVariance (l : List ℚ) : ℚ :=
  let m := l.sum / (l.length : ℚ)
  (l.map (fun x => (x - m) * (x - m))).sum / ((l.length : ℚ) - 1)

/-- Embedding of `FeatureExtractor._percentile` (nearest-rank with
truncated index, clamped to the last element). -/
def percentileNearest (data : List ℚ) (p : ℕ) : ℚ :=
  match data with
  | [] => 0
  | _ :: _ =>
      let s := sortedBy (fun a b => decide (a ≤ b)) data
      s.getD (min ((p * data.length) / 100) (data.length - 1)) 0

/-- Speed/acceleration half of the feature dict.  In the source, the
empty-speeds branch of `_extract_speed_features` returns a dict missing the
acceleration keys, which makes the later `MLFeatures(**...)` constructor
raise `TypeError`; the surrounding `except` turns that into `None`, so the
branch is modelled as `none` here. -/
structure SpeedFeats where
  avg_speed_kmh : ℚ
  max_speed_kmh : ℚ
  speed_variance : ℚ
  speed_percentile_95 : ℚ
  avg_acceleration : ℚ
  max_acceleration : ℚ
  acceleration_variance : ℚ
deriving DecidableEq

/-- Embedding of `_extract_speed_features` (speeds are the present
`speed_kmh` values; accelerations are `|speed[i] - speed[i-1]|` at an
assumed 1 s spacing). -/
def extractSpeedFeats (pts : List MLPoint) : Option SpeedFeats :=
  match pts.filterMap (fun p => p.speed_kmh) with
  | [] => none
  | s :: ss =>
      let speeds := s :: ss
      let accels := (consecPairs speeds).map (fun ab => |ab.2 - ab.1|)
      some
        { avg_speed_kmh := speeds.sum / (speeds.length : ℚ)
          max_speed_kmh := maxList speeds
          speed_variance :=
            if 1 < speeds.length then sampleVariance speeds else 0
          speed_percentile_95 := percentileNearest speeds 95
          avg_acceleration :=
            if accels.isEmpty then 0 else accels.sum / (accels.length : ℚ)
          max_acceleration := if accels.isEmpty then 0 else maxList accels
          acceleration_variance :=
            if 1 < accels.length then sampleVariance accels else 0 }

/-- Smaller angular difference between two bearings, as in
`_calculate_direction_changes`. -/
def angleDiff (b1 b2 : ℚ) : ℚ :=
  let d := |b2 - b1|
  if 180 < d then 360 - d else d

/-- Embedding of the `for i in range(2, len(points))` loop of
`_calculate_direction_changes` (threshold 45°). -/
def countDirChanges (o : ExtOracle) : List MLPoint → ℕ
  | a :: b :: c :: rest =>
      (if 45 < angleDiff (o.bearing a b) (o.bearing b c) then 1 else 0)
        + countDirChanges o (b :: c :: rest)
  | _ => 0

/-- Embedding of `_calculate_duration_hours`. -/
def durationHours (pts : List MLPoint) : ℚ :=
  if pts.length < 2 then 0
  else ((pts.getLast?.map (fun p => p.timestamp.getD 0)).getD 0
        - (pts.head?.map (fun p => p.timestamp.getD 0)).getD 0) / 3600

/-- Stop frequency of `_extract_movement_features`: points below the
2 km/h stop threshold (missing speed counts as 0), divided by
`duration_hours × 60` when positive. -/
def stopFrequencyOf (pts : List MLPoint) : ℚ :=
  let stops := (pts.filter (fun p => decide (p.speed_kmh.getD 0 < 2))).length
  let dh := durationHours pts
  if 0 < dh then (stops : ℚ) / (dh * 60) else 0

/-- Embedding of `_calculate_actual_distance`. -/
def distanceActual (o : ExtOracle) (pts : List MLPoint) : ℚ :=
  if pts.length < 2 then 0
  else ((consecPairs pts).map (fun ab => o.hav ab.1 ab.2)).sum

/-- Embedding of `_calculate_straight_line_distance`. -/
def distanceStraight (o : ExtOracle) (pts : List MLPoint) : ℚ :=
  if pts.length < 2 then 0
  else
    match pts.head?, pts.getLast? with
    | some f, some l => o.hav f l
    | _, _ => 0

/-- Embedding of `_extract_time_features`: duration in minutes, hour of
day and weekday of the first point's timestamp. -/
def timeFeats (o : ExtOracle) (pts : List MLPoint) : ℚ × ℤ × ℤ :=
  match pts.head?, pts.getLast? with
  | some f, some l =>
      ((l.timestamp.getD 0 - f.timestamp.getD 0) / 60,
       o.hourOf (f.timestamp.getD 0), o.weekdayOf (f.timestamp.getD 0))
  | _, _ => (0, 0, 0)

/-- Mean accuracy of `_extract_gps_features` (100 when no point carries an
accuracy). -/
def avgAccuracyOf (pts : List MLPoint) : ℚ :=
  let accs := pts.filterMap (fun p => p.accuracy)
  if accs.isEmpty then 100 else accs.sum / (accs.length : ℚ)

/-- Embedding of the `MLFeatures` dataclass. -/
structure MLFeatures where
  avg_speed_kmh : ℚ
  max_speed_kmh : ℚ
  speed_variance : ℚ
  speed_percentile_95 : ℚ
  avg_acceleration : ℚ
  max_acceleration : ℚ
  acceleration_variance : ℚ
  stop_frequency : ℚ
  direction_changes : ℕ
  distance_straight_line : ℚ
  distance_actual : ℚ
  duration_minutes : ℚ
  time_of_day : ℤ
  day_of_week : ℤ
  activity_confidence : ℚ
  activity_consistency : ℚ
  avg_accuracy : ℚ
  gps_point_count : ℕ
  motion_variance : Option ℚ := none
  stationary_periods : Option ℕ := none
deriving DecidableEq

/-- Embedding of `FeatureExtractor.extract_features` with `sensor_data`
absent (`None`), as in the claim: fewer than
`min_points_for_features = 10` points yield `None`; otherwise the points
are sorted by timestamp and the feature dicts are combined into an
`MLFeatures` value, which fails (and is caught, yielding `None`) exactly
when the speed list is empty. -/
def extract_features (o : ExtOracle) (gps_points : List MLPoint) :
    Option MLFeatures :=
  if gps_points.length < 10 then none
  else
    let sorted := sortPoints gps_points
    (extractSpeedFeats sorted).map fun sf =>
      { avg_speed_kmh := sf.avg_speed_kmh
        max_speed_kmh := sf.max_speed_kmh
        speed_variance := sf.speed_variance
        speed_percentile_95 := sf.speed_percentile_95
        avg_acceleration := sf.avg_acceleration
        max_acceleration := sf.max_acceleration
        acceleration_variance := sf.acceleration_variance
        stop_frequency := stopFrequencyOf sorted
        direction_changes := countDirChanges o sorted
        distance_actual := distanceActual o sorted
        distance_straight_line := distanceStraight o sorted
        duration_minutes := (timeFeats o sorted).1
        time_of_day := (timeFeats o sorted).2.1
        day_of_week := (timeFeats o sorted).2.2
        activity_confidence := 1/2
        activity_consistency := 1/2
        avg_accuracy := avgAccuracyOf sorted
        gps_point_count := sorted.length }

/-- Embedding of the `TransportMode` enum. -/
inductive TransportMode where
  | walking
  | running
  | cycling
  | car
  | bus
  | train
  | metro
  | stationary
  | unknown
deriving DecidableEq

/-- Embedding of the `speed_thresholds` rule table (km/h ranges). -/
def speedThresholds : String → ℚ × ℚ
  | "walking" => (0, 8)
  | "cycling" => (8, 25)
  | "car" => (15, 120)
  | "bus" => (10, 80)
  | "train" => (30, 200)
  | _ => (0, 0)

/-- Embedding of the `acceleration_thresholds` rule table. -/
def accelThresholds : String → ℚ × ℚ
  | "walking" => (0, 2)
  | "cycling" => (0, 3)
  | "car" => (0, 5)
  | "bus" => (0, 4)
  | "train" => (0, 3)
  | _ => (0, 0)

/-- Embedding of the `stop_frequency_thresholds` rule table. -/
def stopFreqThresholds : String → ℚ × ℚ
  | "walking" => (0, 10)
  | "cycling" => (0, 5)
  | "car" => (2, 20)
  | "bus" => (5, 30)
  | "train" => (1, 10)
  | _ => (0, 0)

/-- Embedding of `SimpleMLClassifier._score_in_range`: centrality score
inside the range, linear penalty (over half the nearest bound) outside,
floored at 0. -/
def scoreInRange (value : ℚ) (r : ℚ × ℚ) : ℚ :=
  if r.1 ≤ value ∧ value ≤ r.2 then
    if r.2 - r.1 = 0 then 1
    else max 0 (1 - |value - (r.1 + r.2) / 2| / ((r.2 - r.1) / 2))
  else
    let dp := if value < r.1 then (r.1 - value, r.1 * (1/2))
              else (value - r.2, r.2 * (1/2))
    if dp.2 = 0 then 0 else max 0 (1 - dp.1 / dp.2)

/-- Embedding of `_calculate_mode_score`: weights 0.4/0.3/0.3, divided by
the applied-weight sum. -/
def modeScoreOf (speed accel stopf : ℚ) (mode : String) : ℚ :=
  (scoreInRange speed (speedThresholds mode) * (2/5)
    + scoreInRange accel (accelThresholds mode) * (3/10)
    + scoreInRange stopf (stopFreqThresholds mode) * (3/10))
    / (2/5 + 3/10 + 3/10)

/-- Mode score of a feature vector (the classifier reads exactly the
`avg_speed_kmh`, `avg_acceleration` and `stop_frequency` fields). -/
def modeScore (f : MLFeatures) (mode : String) : ℚ :=
  modeScoreOf f.avg_speed_kmh f.avg_acceleration f.stop_frequency mode

/-- Embedding of the `TransportMode(best_mode)` enum conversion. -/
def toTransportMode : String → TransportMode
  | "walking" => .walking
  | "running" => .running
  | "cycling" => .cycling
  | "car" => .car
  | "bus" => .bus
  | "train" => .train
  | "metro" => .metro
  | "stationary" => .stationary
  | _ => .unknown

/-- Candidate modes scored by `classify_transport_mode`, in source order. -/
def classifyModes : List String := ["walking", "cycling", "car", "bus", "train"]

/-- Embedding of `classify_transport_mode`: Python's
`max(scores, key=scores.get)` keeps the first key of maximal score in
insertion order, i.e. a fold replacing the best only on a strictly greater
score. -/
def classifyTransportMode (f : MLFeatures) : TransportMode × ℚ :=
  let best := classifyModes.foldl
    (fun acc m => if modeScore f acc < modeScore f m then m else acc) "walking"
  (toTransportMode best, modeScore f best)

/-- Concrete feature vector for the C7 witness. -/
def c7Features : MLFeatures :=
  { avg_speed_kmh := 5
    max_speed_kmh := 5
    speed_variance := 0
    speed_percentile_95 := 5
    avg_acceleration := 1
    max_acceleration := 1
    acceleration_variance := 0
    stop_frequency := 8/60
    direction_changes := 0
    distance_straight_line := 0
    distance_actual := 0
    duration_minutes := 10
    time_of_day := 9
    day_of_week := 1
    activity_confidence := 1/2
    activity_consistency := 1/2
    avg_accuracy := 10
    gps_point_count := 20 }

/-- Oracle instance with all external numeric calls returning 0, used for
concrete runs of the extractor. -/
def zeroOracle : ExtOracle :=
  ⟨fun _ _ => 0, fun _ _ => 0, fun _ => 0, fun _ => 0⟩

/-- Ten points, none carrying a speed value. -/
def c9BadPoints : List MLPoint :=
  (List.range 10).map fun i =>
    { timestamp := some (i : ℚ), latitude := some 0, longitude := some 0,
      accuracy := some 5 }

/-- Nine points with speeds. -/
def c9NinePoints : List MLPoint :=
  (List.range 9).map fun i =>
    { timestamp := some (i : ℚ), speed_kmh := some 5 }

/-- Ten points with speeds. -/
def c9GoodPoints : List MLPoint :=
  (List.range 10).map fun i =>
    { timestamp := some (i : ℚ), latitude := some 0, longitude := some 0,
      speed_kmh := some 5, accuracy := some 5 }

end TripSync

/-! ## Theorems -/

namespace TripSync

/-- C8: `manual_start_trip` on an already-Active session is idempotent: it
returns the ongoing trip id, performs no transition, invokes no
`on_trip_start` hook, and leaves every field of the context (state, trip
id, state-entry time, debounce timers) exactly as it was. -/
theorem manualStart_idempotent_on_active (ctx : TripContext) (uid : String)
    (now : ℚ) (h : ctx.current_state = .active) :
    manualStartTrip ctx uid now = (ctx.trip_id, ctx, []) := by
  simp [manualStartTrip, h]

/-- Witness for C8 at a concrete Active context. -/
theorem manualStart_idempotent_on_active_witness :
    manualStartTrip c8ActiveCtx "user1" 7 = (some "auto_5", c8ActiveCtx, []) :=
  manualStart_idempotent_on_active c8ActiveCtx "user1" 7 rfl

theorem tripIdInvariant_transitionToActive (ctx : TripContext) (tid : String)
    (now : ℚ) : tripIdInvariant (transitionToActive ctx tid now).1 := by
  simp [tripIdInvariant, transitionToActive]

theorem tripIdInvariant_transitionToIdle (ctx : TripContext) (now : ℚ) :
    tripIdInvariant (transitionToIdle ctx now).1 := by
  simp [tripIdInvariant, transitionToIdle]

theorem tripIdInvariant_applyOp (cfg : TripConfig) (ctx : TripContext)
    (op : MachineOp) (h : tripIdInvariant ctx) :
    tripIdInvariant (applyOp cfg ctx op) := by
  obtain ⟨tid, st, sst, lsd, sab, sbe⟩ := ctx
  cases op with
  | sensor sd now =>
      cases st with
      | idle =>
          cases sab with
          | none =>
              by_cases hsp : cfg.speed_threshold_kmh ≤ sd.speed_kmh
              · simpa [applyOp, processSensorData, handleIdleState, hsp,
                  tripIdInvariant] using h
              · simpa [applyOp, processSensorData, handleIdleState, hsp,
                  tripIdInvariant] using h
          | some t0 =>
              by_cases hsp : cfg.speed_threshold_kmh ≤ sd.speed_kmh
              · by_cases hd :
                    cfg.duration_threshold_seconds ≤ sd.timestamp - t0
                · simp [applyOp, processSensorData, handleIdleState, hsp, hd,
                    transitionToActive, tripIdInvariant]
                · simpa [applyOp, processSensorData, handleIdleState, hsp, hd,
                    tripIdInvariant] using h
              · simpa [applyOp, processSensorData, handleIdleState, hsp,
                  tripIdInvariant] using h
      | active =>
          cases sbe with
          | none =>
              by_cases hsp : sd.speed_kmh < cfg.speed_threshold_kmh
              · simpa [applyOp, processSensorData, handleActiveState, hsp,
                  tripIdInvariant] using h
              · simpa [applyOp, processSensorData, handleActiveState, hsp,
                  tripIdInvariant] using h
          | some t0 =>
              by_cases hsp : sd.speed_kmh < cfg.speed_threshold_kmh
              · by_cases hd :
                    cfg.stop_duration_threshold_seconds ≤ sd.timestamp - t0
                · simp [applyOp, processSensorData, handleActiveState, hsp, hd,
                    transitionToIdle, tripIdInvariant]
                · simpa [applyOp, processSensorData, handleActiveState, hsp,
                    hd, tripIdInvariant] using h
              · simpa [applyOp, processSensorData, handleActiveState, hsp,
                  tripIdInvariant] using h
  | manualStart uid now =>
      cases st with
      | idle =>
          simp [applyOp, manualStartTrip, transitionToActive, tripIdInvariant]
      | active =>
          simpa [applyOp, manualStartTrip, tripIdInvariant] using h
  | manualStop now =>
      cases st with
      | idle =>
          simpa [applyOp, manualStopTrip, tripIdInvariant] using h
      | active =>
          simp [applyOp, manualStopTrip, transitionToIdle, tripIdInvariant]

/-- C3: after any finite sequence of operations (`process_sensor_data`,
`manual_start_trip`, `manual_stop_trip`) from the initial Idle context, the
context's trip id is non-null iff the current state is Active. -/
theorem trip_id_iff_active (cfg : TripConfig) (ops : List MachineOp) :
    tripIdInvariant (runOps cfg initialContext ops) := by
  have hgen : ∀ ctx, tripIdInvariant ctx →
      tripIdInvariant (runOps cfg ctx ops) := by
    induction ops with
    | nil => intro ctx h; simpa [runOps] using h
    | cons op rest ih =>
        intro ctx h
        have := ih (applyOp cfg ctx op) (tripIdInvariant_applyOp cfg ctx op h)
        simpa [runOps, List.foldl_cons] using this
  exact hgen initialContext (by simp [tripIdInvariant, initialContext])

theorem step_idle_sets_timer (tid : Option String) (sst : Option ℚ)
    (lsd : Option SensorData) (sbe : Option ℚ) (sd : SensorData) (now : ℚ)
    (hsp : (3 : ℚ) ≤ sd.speed_kmh) :
    processSensorData defaultTripConfig ⟨tid, .idle, sst, lsd, none, sbe⟩ sd now
      = ⟨⟨tid, .idle, sst, some sd, some sd.timestamp, sbe⟩, false, []⟩ := by
  simp [processSensorData, handleIdleState, defaultTripConfig, hsp]

theorem step_idle_waits (tid : Option String) (sst : Option ℚ)
    (lsd : Option SensorData) (sbe : Option ℚ) (t0 : ℚ) (sd : SensorData)
    (now : ℚ) (hsp : (3 : ℚ) ≤ sd.speed_kmh) (hd : sd.timestamp - t0 < 60) :
    processSensorData defaultTripConfig ⟨tid, .idle, sst, lsd, some t0, sbe⟩ sd now
      = ⟨⟨tid, .idle, sst, some sd, some t0, sbe⟩, false, []⟩ := by
  have hnd : ¬ ((60 : ℚ) ≤ sd.timestamp - t0) := not_le.mpr hd
  simp [processSensorData, handleIdleState, defaultTripConfig, hsp, hnd]

theorem step_idle_fires (tid : Option String) (sst : Option ℚ)
    (lsd : Option SensorData) (sbe : Option ℚ) (t0 : ℚ) (sd : SensorData)
    (now : ℚ) (hsp : (3 : ℚ) ≤ sd.speed_kmh)
    (hd : (60 : ℚ) ≤ sd.timestamp - t0) :
    processSensorData defaultTripConfig ⟨tid, .idle, sst, lsd, some t0, sbe⟩ sd now
      = ⟨⟨some (genTripId "auto" now), .active, some now, some sd, none, none⟩,
         true, [HookEvent.tripStart (genTripId "auto" now)]⟩ := by
  simp [processSensorData, handleIdleState, transitionToActive,
    defaultTripConfig, hsp, hd]

theorem step_active_keeps (tid : Option String) (sst : Option ℚ)
    (lsd : Option SensorData) (sab : Option ℚ) (sd : SensorData) (now : ℚ)
    (hsp : (3 : ℚ) ≤ sd.speed_kmh) :
    processSensorData defaultTripConfig ⟨tid, .active, sst, lsd, sab, none⟩ sd now
      = ⟨⟨tid, .active, sst, some sd, sab, none⟩, false, []⟩ := by
  have hns : ¬ (sd.speed_kmh < (3 : ℚ)) := not_lt.mpr hsp
  simp [processSensorData, handleActiveState, defaultTripConfig, hns]

theorem runMachine_cons (cfg : TripConfig) (ctx : TripContext)
    (i : SensorData × ℚ) (l : List (SensorData × ℚ)) :
    runMachine cfg ctx (i :: l)
      = ((runMachine cfg (processSensorData cfg ctx i.1 i.2).ctx l).1,
         (processSensorData cfg ctx i.1 i.2).state_changed
           :: (runMachine cfg (processSensorData cfg ctx i.1 i.2).ctx l).2) := by
  simp [runMachine]

theorem runMachine_append (cfg : TripConfig) (l1 l2 : List (SensorData × ℚ))
    (ctx : TripContext) :
    runMachine cfg ctx (l1 ++ l2)
      = ((runMachine cfg (runMachine cfg ctx l1).1 l2).1,
         (runMachine cfg ctx l1).2
           ++ (runMachine cfg (runMachine cfg ctx l1).1 l2).2) := by
  induction l1 generalizing ctx with
  | nil => simp [runMachine]
  | cons p ps ih => simp [runMachine, ih]

theorem runMachine_idle_phase (l : List (SensorData × ℚ)) :
    ∀ (tid : Option String) (sst : Option ℚ) (lsd : Option SensorData)
      (sbe : Option ℚ) (t0 : ℚ),
      (∀ p ∈ l, (3 : ℚ) ≤ p.1.speed_kmh) →
      (∀ p ∈ l, p.1.timestamp - t0 < 60) →
      ∃ lsd', runMachine defaultTripConfig ⟨tid, .idle, sst, lsd, some t0, sbe⟩ l
        = (⟨tid, .idle, sst, lsd', some t0, sbe⟩,
           List.replicate l.length false) := by
  induction l with
  | nil => intro tid sst lsd sbe t0 _ _; exact ⟨lsd, by simp [runMachine]⟩
  | cons p ps ih =>
      intro tid sst lsd sbe t0 hsp hts
      have h1 : (3 : ℚ) ≤ p.1.speed_kmh := hsp p (List.mem_cons_self _ _)
      have h2 : p.1.timestamp - t0 < 60 := hts p (List.mem_cons_self _ _)
      obtain ⟨lsd', hrun⟩ := ih tid sst (some p.1) sbe t0
        (fun q hq => hsp q (List.mem_cons_of_mem _ hq))
        (fun q hq => hts q (List.mem_cons_of_mem _ hq))
      refine ⟨lsd', ?_⟩
      rw [runMachine_cons, step_idle_waits tid sst lsd sbe t0 p.1 p.2 h1 h2]
      simp [hrun, List.replicate_succ]

theorem runMachine_active_phase (l : List (SensorData × ℚ)) :
    ∀ (tid : Option String) (sst : Option ℚ) (lsd : Option SensorData)
      (sab : Option ℚ),
      (∀ p ∈ l, (3 : ℚ) ≤ p.1.speed_kmh) →
      ∃ lsd', runMachine defaultTripConfig ⟨tid, .active, sst, lsd, sab, none⟩ l
        = (⟨tid, .active, sst, lsd', sab, none⟩,
           List.replicate l.length false) := by
  induction l with
  | nil => intro tid sst lsd sab _; exact ⟨lsd, by simp [runMachine]⟩
  | cons p ps ih =>
      intro tid sst lsd sab hsp
      have h1 : (3 : ℚ) ≤ p.1.speed_kmh := hsp p (List.mem_cons_self _ _)
      obtain ⟨lsd', hrun⟩ := ih tid sst (some p.1) sab
        (fun q hq => hsp q (List.mem_cons_of_mem _ hq))
      refine ⟨lsd', ?_⟩
      rw [runMachine_cons, step_active_keeps tid sst lsd sab p.1 p.2 h1]
      simp [hrun, List.replicate_succ]

theorem dropWhile_head_false {α : Type} (p : α → Bool) :
    ∀ (l : List α) (b : α) (bs : List α), l.dropWhile p = b :: bs →
      p b = false := by
  intro l
  induction l with
  | nil => intro b bs h; simp [List.dropWhile] at h
  | cons a t ih =>
      intro b bs h
      by_cases hpa : p a = true
      · rw [List.dropWhile_cons_of_pos hpa] at h
        exact ih b bs h
      · rw [List.dropWhile_cons_of_neg hpa] at h
        cases h
        simpa using hpa

/-- C1: starting Idle with thresholds 3 km/h and 60 s, on a nonempty sample
sequence with non-decreasing timestamps, every speed at or above the
threshold, and total span at least 60 s, the machine transitions exactly
once — `state_changed` is true precisely at the first sample whose
timestamp is at least 60 s after the first sample's (the debounce-timer
start) — and ends Active. -/
theorem idle_to_active_exactly_once
    (s0 : SensorData × ℚ) (rest : List (SensorData × ℚ))
    (hmono : List.Chain' (fun a b => a.1.timestamp ≤ b.1.timestamp) (s0 :: rest))
    (hspeed : ∀ p ∈ s0 :: rest, (3 : ℚ) ≤ p.1.speed_kmh)
    (lastP : SensorData × ℚ) (hlast : (s0 :: rest).getLast? = some lastP)
    (hspan : s0.1.timestamp + 60 ≤ lastP.1.timestamp) :
    (runMachine defaultTripConfig initialContext (s0 :: rest)).2
      = List.replicate
          (((s0 :: rest).takeWhile
              fun p => decide (p.1.timestamp < s0.1.timestamp + 60)).length) false
        ++ true :: List.replicate
          ((s0 :: rest).length
            - ((s0 :: rest).takeWhile
                fun p => decide (p.1.timestamp < s0.1.timestamp + 60)).length
            - 1) false
      ∧ (runMachine defaultTripConfig initialContext (s0 :: rest)).1.current_state
        = TripState.active := by
  classical
  set T : ℚ := s0.1.timestamp + 60 with hT
  set pred : SensorData × ℚ → Bool := fun p => decide (p.1.timestamp < T)
    with hpredDef
  have hsp0 : (3 : ℚ) ≤ s0.1.speed_kmh := hspeed s0 (List.mem_cons_self _ _)
  have hmem : lastP ∈ s0 :: rest := by
    obtain ⟨h, rfl⟩ := List.mem_getLast?_eq_getLast hlast
    exact List.getLast_mem h
  have hTA : rest.takeWhile pred ++ rest.dropWhile pred = rest :=
    List.takeWhile_append_dropWhile pred rest
  have hBne : rest.dropWhile pred ≠ [] := by
    intro hnil
    have hrestA : rest = rest.takeWhile pred := by
      conv_lhs => rw [← hTA, hnil, List.append_nil]
    rcases List.mem_cons.mp hmem with h0 | hr
    · subst h0; linarith
    · have hmemA : lastP ∈ rest.takeWhile pred := hrestA ▸ hr
      have := List.mem_takeWhile_imp hmemA
      rw [hpredDef] at this
      simp only [decide_eq_true_eq] at this
      linarith
  obtain ⟨b, B', hB⟩ := List.exists_cons_of_ne_nil hBne
  have hbT : T ≤ b.1.timestamp := by
    have hf := dropWhile_head_false pred rest b B' hB
    rw [hpredDef] at hf
    simp only [decide_eq_false_iff_not, not_lt] at hf
    exact hf
  have hrest : rest = rest.takeWhile pred ++ (b :: B') := by
    conv_lhs => rw [← hTA, hB]
  have hspA : ∀ p ∈ rest.takeWhile pred, (3 : ℚ) ≤ p.1.speed_kmh := fun p hp =>
    hspeed p (List.mem_cons_of_mem _ ((List.takeWhile_sublist pred).subset hp))
  have htsA : ∀ p ∈ rest.takeWhile pred,
      p.1.timestamp - s0.1.timestamp < 60 := by
    intro p hp
    have := List.mem_takeWhile_imp hp
    rw [hpredDef] at this
    simp only [decide_eq_true_eq] at this
    linarith
  have hspb : (3 : ℚ) ≤ b.1.speed_kmh := by
    refine hspeed b (List.mem_cons_of_mem _ ?_)
    have : b ∈ rest.dropWhile pred := by rw [hB]; exact List.mem_cons_self _ _
    exact (List.dropWhile_sublist pred).subset this
  have hspB' : ∀ p ∈ B', (3 : ℚ) ≤ p.1.speed_kmh := by
    intro p hp
    refine hspeed p (List.mem_cons_of_mem _ ?_)
    have : p ∈ rest.dropWhile pred := by
      rw [hB]; exact List.mem_cons_of_mem _ hp
    exact (List.dropWhile_sublist pred).subset this
  have h0 : processSensorData defaultTripConfig initialContext s0.1 s0.2
      = ⟨⟨none, .idle, none, some s0.1, some s0.1.timestamp, none⟩, false, []⟩ :=
    step_idle_sets_timer none none none none s0.1 s0.2 hsp0
  obtain ⟨lsdA, hrunA⟩ := runMachine_idle_phase (rest.takeWhile pred)
    none none (some s0.1) none s0.1.timestamp hspA htsA
  have hfire : processSensorData defaultTripConfig
      ⟨none, .idle, none, lsdA, some s0.1.timestamp, none⟩ b.1 b.2
      = ⟨⟨some (genTripId "auto" b.2), .active, some b.2, some b.1, none, none⟩,
         true, [HookEvent.tripStart (genTripId "auto" b.2)]⟩ :=
    step_idle_fires none none lsdA none s0.1.timestamp b.1 b.2 hspb
      (by rw [hT] at hbT; linarith)
  obtain ⟨lsdB, hrunB⟩ := runMachine_active_phase B'
    (some (genTripId "auto" b.2)) (some b.2) (some b.1) none hspB'
  have hpredS0 : pred s0 = true := by
    rw [hpredDef]
    simp only [decide_eq_true_eq]
    rw [hT]; linarith
  have hlenRest := congrArg List.length hrest
  simp only [List.length_append, List.length_cons] at hlenRest
  constructor
  · conv_lhs => rw [hrest]
    rw [runMachine_cons, h0]
    simp only [runMachine_append, hrunA, hrunB, runMachine_cons, hfire]
    rw [List.takeWhile_cons_of_pos hpredS0]
    simp only [List.length_cons]
    have hn1 : rest.length + 1 - ((rest.takeWhile pred).length + 1) - 1
        = B'.length := by omega
    rw [hn1, List.replicate_succ]
    simp
  · conv_lhs => rw [hrest]
    rw [runMachine_cons, h0]
    simp only [runMachine_append, hrunA, hrunB, runMachine_cons, hfire]

unseal Rat.add Rat.sub Rat.mul Rat.inv in
/-- Witness for C1 at a concrete two-sample run (t = 0 and t = 61). -/
theorem idle_to_active_exactly_once_witness :
    (runMachine defaultTripConfig initialContext (c1S0 :: c1Rest)).2
      = List.replicate
          (((c1S0 :: c1Rest).takeWhile
              fun p => decide (p.1.timestamp < c1S0.1.timestamp + 60)).length) false
        ++ true :: List.replicate
          ((c1S0 :: c1Rest).length
            - ((c1S0 :: c1Rest).takeWhile
                fun p => decide (p.1.timestamp < c1S0.1.timestamp + 60)).length
            - 1) false
      ∧ (runMachine defaultTripConfig initialContext (c1S0 :: c1Rest)).1.current_state
        = TripState.active :=
  idle_to_active_exactly_once c1S0 c1Rest
    (by norm_num [c1S0, c1Rest, mkSample, List.chain'_cons]) (by decide) c1Last
    (by decide) (by decide)

unseal Rat.add Rat.sub Rat.mul Rat.inv in
/-- C2: with thresholds 3 km/h and 60 s, the sequence of 59 samples at
5 km/h, one at 1 km/h, and 59 more at 5 km/h (1 Hz) produces no
Idle-to-Active transition in its 119 samples: the single below-threshold
sample resets the debounce timer, and the machine ends still Idle. -/
theorem no_transition_within_first_119s :
    (runMachine defaultTripConfig initialContext c2Inputs).2
        = List.replicate 119 false
      ∧ (runMachine defaultTripConfig initialContext c2Inputs).1.current_state
        = TripState.idle := by
  decide

theorem shouldAddPoint_getLast (dist : RoutePoint → RoutePoint → ℚ)
    (buf : List RoutePoint) (p : RoutePoint)
    (h : shouldAddPoint dist buf p = true) :
    ∀ x ∈ buf.getLast?, 10 ≤ dist x p := by
  intro x hx
  rw [Option.mem_def] at hx
  rw [shouldAddPoint, hx] at h
  simpa using h

theorem distChain_addGpsPoint (dist : RoutePoint → RoutePoint → ℚ)
    (buf : List RoutePoint) (gd : GpsInput) (now : ℚ)
    (h : distChain dist buf) :
    distChain dist (addGpsPoint dist buf gd now).1 := by
  rw [addGpsPoint]
  by_cases hv : validateGpsData gd = true
  · simp only [hv, if_true]
    by_cases hs : shouldAddPoint dist buf (mkRoutePoint gd now) = true
    · simp only [hs, if_true]
      rw [distChain, List.chain'_append]
      refine ⟨h, List.chain'_singleton _, ?_⟩
      intro x hx y hy
      simp only [List.head?_cons, Option.mem_some_iff] at hy
      subst hy
      exact shouldAddPoint_getLast dist buf _ hs x hx
    · simpa [hs] using h
  · simpa [hv] using h

theorem distChain_runAddPoints (dist : RoutePoint → RoutePoint → ℚ)
    (calls : List (GpsInput × ℚ)) :
    ∀ buf, distChain dist buf → distChain dist (runAddPoints dist buf calls) := by
  induction calls with
  | nil => intro buf h; simpa [runAddPoints] using h
  | cons c cs ih =>
      intro buf h
      have hstep := distChain_addGpsPoint dist buf c.1 c.2 h
      simpa [runAddPoints, List.foldl_cons] using
        ih (addGpsPoint dist buf c.1 c.2).1 hstep

theorem tsSorted_runAddPoints (dist : RoutePoint → RoutePoint → ℚ)
    (calls : List (GpsInput × ℚ)) :
    ∀ buf,
      List.Pairwise (· ≤ ·)
        (buf.map RoutePoint.timestamp ++ calls.map effTs) →
      List.Pairwise (· ≤ ·)
        ((runAddPoints dist buf calls).map RoutePoint.timestamp) := by
  induction calls with
  | nil => intro buf h; simpa [runAddPoints] using h
  | cons c cs ih =>
      intro buf h
      have hfold : runAddPoints dist buf (c :: cs)
          = runAddPoints dist (addGpsPoint dist buf c.1 c.2).1 cs := by
        simp [runAddPoints, List.foldl_cons]
      rw [hfold]
      rw [addGpsPoint]
      by_cases hv : validateGpsData c.1 = true
      · simp only [hv, if_true]
        by_cases hs : shouldAddPoint dist buf (mkRoutePoint c.1 c.2) = true
        · simp only [hs, if_true]
          refine ih _ ?_
          have hts : (mkRoutePoint c.1 c.2).timestamp = effTs c := rfl
          simpa [List.map_append, hts, List.append_assoc] using h
        · simp only [hs, if_false]
          refine ih _ ?_
          refine h.sublist ?_
          exact (List.sublist_cons_self (effTs c) (cs.map effTs)).append_left _
      · simp only [hv, if_false]
        refine ih _ ?_
        refine h.sublist ?_
        exact (List.sublist_cons_self (effTs c) (cs.map effTs)).append_left _

unseal Rat.mul Rat.add Rat.sub Rat.inv in
/-- Counterexample to C4 as stated: `add_gps_point` never checks timestamp
order, so two valid calls whose timestamps arrive out of order (100 then
50) but whose points are far apart are both retained, and the buffer
violates the non-decreasing-timestamp half of the claimed invariant. -/
theorem buffer_ts_order_counterexample :
    ¬ tsChain (runAddPoints latDist [] c4OutOfOrderCalls) := by
  intro h
  have hbuf : runAddPoints latDist [] c4OutOfOrderCalls
      = [⟨0, 0, 100, 5, none, none, none⟩, ⟨1, 0, 50, 5, none, none, none⟩] := by
    decide
  rw [hbuf, tsChain, List.chain'_cons] at h
  have h1 := h.1
  simp only at h1
  norm_num at h1

/-- C4 (amended): for every distance function and every sequence of
`add_gps_point` calls, the retained buffer keeps consecutive points at
least `min_distance_filter = 10` m apart; and, provided the calls'
effective timestamps arrive in non-decreasing order, the buffer's
timestamps are non-decreasing as well (the code itself never enforces the
order, so the hypothesis on the inputs is required). -/
theorem buffer_invariant (dist : RoutePoint → RoutePoint → ℚ)
    (calls : List (GpsInput × ℚ)) :
    distChain dist (runAddPoints dist [] calls)
      ∧ (List.Chain' (fun a b => effTs a ≤ effTs b) calls →
          tsChain (runAddPoints dist [] calls)) := by
  haveI : IsTrans (GpsInput × ℚ) (fun a b => effTs a ≤ effTs b) :=
    ⟨fun _ _ _ h1 h2 => le_trans h1 h2⟩
  haveI : IsTrans RoutePoint (fun a b => a.timestamp ≤ b.timestamp) :=
    ⟨fun _ _ _ h1 h2 => le_trans h1 h2⟩
  constructor
  · exact distChain_runAddPoints dist calls [] (List.chain'_nil)
  · intro hord
    have hp : List.Pairwise (fun a b => effTs a ≤ effTs b) calls :=
      List.chain'_iff_pairwise.mp hord
    have hp' : List.Pairwise (· ≤ ·)
        (([] : List RoutePoint).map RoutePoint.timestamp ++ calls.map effTs) := by
      simpa [List.pairwise_map] using hp
    have := tsSorted_runAddPoints dist calls [] hp'
    rw [tsChain, List.chain'_iff_pairwise]
    simpa [List.pairwise_map] using this

unseal Rat.mul Rat.add Rat.sub Rat.inv in
/-- Witness for C4 (amended) on two concrete in-order calls. -/
theorem buffer_invariant_witness :
    distChain latDist (runAddPoints latDist [] c4InOrderCalls)
      ∧ tsChain (runAddPoints latDist [] c4InOrderCalls) :=
  ⟨(buffer_invariant latDist c4InOrderCalls).1,
   (buffer_invariant latDist c4InOrderCalls).2
     (by norm_num [c4InOrderCalls, List.chain'_cons, List.chain'_singleton, effTs])⟩

theorem consecPairs_cons₂ {α : Type} (a b : α) (l : List α) :
    consecPairs (a :: b :: l) = (a, b) :: consecPairs (b :: l) := by
  simp [consecPairs]

theorem consecPairs_append_singleton {α : Type} (q : α) :
    ∀ l : List α, consecPairs (l ++ [q])
      = consecPairs l ++ (l.getLast?.map fun x => (x, q)).toList := by
  intro l
  induction l with
  | nil => simp [consecPairs]
  | cons a t ih =>
      cases t with
      | nil => simp [consecPairs]
      | cons b t' =>
          have h1 : (a :: b :: t') ++ [q] = a :: b :: (t' ++ [q]) := by simp
          rw [h1, consecPairs_cons₂]
          have h2 : (b :: t') ++ [q] = b :: (t' ++ [q]) := by simp
          rw [← h2, ih, consecPairs_cons₂]
          simp

/-- C6: if every consecutive segment of the buffer is under 1 km, the
recorder's `_calculate_distance` equals the plain unfiltered sum of all
consecutive distances; and appending one artificial point whose segment
from the previous last point measures 2 km leaves the computed total
unchanged — the over-1-km segment is excluded from the sum while the point
stays in the buffer. -/
theorem calc_distance_outlier (dist : RoutePoint → RoutePoint → ℚ)
    (pts : List RoutePoint) (q : RoutePoint)
    (hall : ∀ ab ∈ consecPairs pts, dist ab.1 ab.2 < 1000)
    (hjump : ∀ lastP ∈ pts.getLast?.toList, dist lastP q = 2000) :
    calcDistanceKm dist pts = plainDistanceKm dist pts
      ∧ calcDistanceKm dist (pts ++ [q]) = calcDistanceKm dist pts := by
  constructor
  · rw [calcDistanceKm, plainDistanceKm]
    by_cases hlen : pts.length < 2
    · have hcp : consecPairs pts = [] := by
        match pts, hlen with
        | [], _ => rfl
        | [x], _ => rfl
      simp [hcp, hlen]
    · rw [if_neg hlen]
      congr 1
      congr 1
      refine List.map_congr_left ?_
      intro ab hab
      exact if_pos (hall ab hab)
  · match pts with
    | [] => simp [calcDistanceKm, consecPairs]
    | [x] =>
        have hx : dist x q = 2000 := hjump x (by simp)
        norm_num [calcDistanceKm, consecPairs, hx]
    | x :: y :: t =>
        cases hgl : (x :: y :: t).getLast? with
        | none => simp at hgl
        | some lastP =>
            have hjq : dist lastP q = 2000 := by
              refine hjump lastP ?_
              rw [hgl]; simp
            have hl1 : ¬ ((x :: y :: t).length < 2) := by simp
            have hl2 : ¬ (((x :: y :: t) ++ [q]).length < 2) := by simp
            have hnlt : ¬ (dist lastP q < 1000) := by rw [hjq]; norm_num
            rw [calcDistanceKm, calcDistanceKm, if_neg hl1, if_neg hl2]
            rw [consecPairs_append_singleton q, hgl]
            simp only [Option.map_some', Option.toList_some, List.map_append,
              List.sum_append, List.map_cons, List.map_nil, List.sum_cons,
              List.sum_nil]
            rw [if_neg hnlt]
            norm_num

unseal Rat.mul Rat.add Rat.sub Rat.inv in
/-- Witness for C6 on three concrete points 555 m apart plus one point 2 km
further. -/
theorem calc_distance_outlier_witness :
    calcDistanceKm latDist c6Pts = plainDistanceKm latDist c6Pts
      ∧ calcDistanceKm latDist (c6Pts ++ [c6Q]) = calcDistanceKm latDist c6Pts :=
  calc_distance_outlier latDist c6Pts c6Q (by decide) (by decide)

unseal Rat.mul Rat.inv in
/-- C5 fails on the code: `process_activity` uppercases the label before
the dict lookup, but the iOS Core Motion keys of `activity_mapping`
("automotive", "cycling", "stationary") are lowercase, so they can never
match — the label "automotive" is mapped to unknown instead of in_vehicle.
This theorem evaluates the embedded code at that failing input. -/
theorem ios_automotive_maps_to_unknown :
    processActivity (some "automotive") (some (9/10))
      = (ActivityType.unknown, 9/10) := by
  decide

/-- C10: a validated sample with no speed reading contributes 0 km/h to the
user's smoothing window — `_process_speed` appends `(None or 0) × 3.6 = 0`
— and the returned smoothed speed is the arithmetic mean of the new window,
which contains that 0. -/
theorem process_speed_none_counts_zero (w : List ℚ) :
    processSpeed none w
        = ((pushWindow 5 w 0).sum / ((pushWindow 5 w 0).length : ℚ),
           pushWindow 5 w 0)
      ∧ (0 : ℚ) ∈ pushWindow 5 w 0 := by
  have hmem : (0 : ℚ) ∈ pushWindow 5 w 0 := by
    rw [pushWindow]
    have h1 : (w ++ [(0 : ℚ)]).length - 5 ≤ w.length := by
      simp only [List.length_append, List.length_cons, List.length_nil]
      omega
    rw [List.drop_append_of_le_length h1]
    exact List.mem_append_right _ (List.mem_singleton.mpr rfl)
  refine ⟨?_, hmem⟩
  rw [processSpeed]
  have h0 : (none : Option ℚ).getD 0 * (18/5) = 0 := by simp
  rw [h0]
  have hne : ¬ ((pushWindow 5 w 0).isEmpty = true) := by
    simp only [List.isEmpty_iff]
    exact List.ne_nil_of_mem hmem
  rw [if_neg hne]

unseal Rat.add Rat.sub Rat.mul Rat.inv in
set_option maxRecDepth 4000 in
/-- C7: on any feature vector with mean speed 5 km/h, mean acceleration 1
and stop frequency 8/60, the rule scorer gives walking a strictly higher
score than train, and the arg-max classification selects walking. -/
theorem walking_beats_train (f : MLFeatures)
    (h1 : f.avg_speed_kmh = 5) (h2 : f.avg_acceleration = 1)
    (h3 : f.stop_frequency = 8/60) :
    modeScore f "train" < modeScore f "walking"
      ∧ (classifyTransportMode f).1 = TransportMode.walking := by
  have hm : ∀ m, modeScore f m = modeScoreOf 5 1 (8/60) m := by
    intro m; rw [modeScore, h1, h2, h3]
  constructor
  · rw [hm "train", hm "walking"]; decide
  · have hc : classifyTransportMode f
        = (TransportMode.walking, modeScoreOf 5 1 (8/60) "walking") := by
      simp only [classifyTransportMode, classifyModes, List.foldl_cons,
        List.foldl_nil, hm]
      decide
    rw [hc]

unseal Rat.add Rat.sub Rat.mul Rat.inv in
/-- Witness for C7 at a concrete feature vector. -/
theorem walking_beats_train_witness :
    modeScore c7Features "train" < modeScore c7Features "walking"
      ∧ (classifyTransportMode c7Features).1 = TransportMode.walking :=
  walking_beats_train c7Features rfl rfl rfl

theorem mem_insertSorted {α : Type} (le : α → α → Bool) (x a : α) :
    ∀ l : List α, a ∈ insertSorted le x l ↔ a = x ∨ a ∈ l := by
  intro l
  induction l with
  | nil => simp [insertSorted]
  | cons y ys ih =>
      rw [insertSorted]
      cases hxy : le x y with
      | true => simp [List.mem_cons]
      | false =>
          simp only [Bool.false_eq_true, if_false, List.mem_cons, ih]
          tauto

theorem mem_sortedBy {α : Type} (le : α → α → Bool) (a : α) :
    ∀ l : List α, a ∈ sortedBy le l ↔ a ∈ l := by
  intro l
  induction l with
  | nil => simp [sortedBy]
  | cons x xs ih =>
      rw [sortedBy, mem_insertSorted]
      simp [ih]

unseal Rat.add Rat.sub Rat.mul Rat.inv in
/-- Counterexample to C9 as stated: ten points that all lack a speed value
make `_extract_speed_features` return an incomplete dict, the `MLFeatures`
construction raise, and `extract_features` return the InsufficientData
result `None` instead of a populated vector. -/
theorem ten_points_without_speed_yield_none :
    c9BadPoints.length = 10
      ∧ extract_features zeroOracle c9BadPoints = none := by
  decide

/-- C9 (amended): `extract_features` on fewer than 10 points (in
particular 9) returns the InsufficientData result `None`; on 10 or more
points of which at least one carries a speed value it returns a populated
feature vector — never a partial one.  (With 10+ all-speedless points the
code also returns `None`, not a populated vector.) -/
theorem extract_features_count_gate (o : ExtOracle) :
    (∀ pts : List MLPoint, pts.length < 10 → extract_features o pts = none)
      ∧ (∀ pts : List MLPoint, 10 ≤ pts.length →
          (∃ p ∈ pts, p.speed_kmh ≠ none) →
          ∃ v, extract_features o pts = some v) := by
  constructor
  · intro pts h
    rw [extract_features, if_pos h]
  · intro pts hlen hex
    obtain ⟨p, hp, hsp⟩ := hex
    rw [extract_features, if_neg (not_lt.mpr hlen)]
    have hmem : p ∈ sortPoints pts := by
      rw [sortPoints, mem_sortedBy]; exact hp
    obtain ⟨v, hv⟩ : ∃ v, p.speed_kmh = some v :=
      Option.ne_none_iff_exists'.mp hsp
    have hne : (sortPoints pts).filterMap (fun q => q.speed_kmh) ≠ [] := by
      intro hnil
      have := List.filterMap_eq_nil_iff.mp hnil p hmem
      rw [hv] at this
      exact Option.noConfusion this
    have hsf : ∃ sf, extractSpeedFeats (sortPoints pts) = some sf := by
      rw [extractSpeedFeats]
      cases hsp2 : (sortPoints pts).filterMap (fun q => q.speed_kmh) with
      | nil => exact absurd hsp2 hne
      | cons s ss => exact ⟨_, rfl⟩
    obtain ⟨sf, hsf⟩ := hsf
    dsimp only
    rw [hsf]
    exact ⟨_, rfl⟩

unseal Rat.add Rat.sub Rat.mul Rat.inv in
/-- Witness for C9 (amended): nine points yield `None`; ten points with
speeds yield a populated vector. -/
theorem extract_features_count_gate_witness :
    extract_features zeroOracle c9NinePoints = none
      ∧ ∃ v, extract_features zeroOracle c9GoodPoints = some v :=
  ⟨(extract_features_count_gate zeroOracle).1 c9NinePoints (by decide),
   (extract_features_count_gate zeroOracle).2 c9GoodPoints (by decide)
     (by decide)⟩

end TripSync
